import Mathlib

/-!
Verification of the yearly-activity plotting tool (src/app.py).

The program's core logic — username resolution, year-set parsing and
date-series construction — is embedded shallowly below.  Python strings
are modelled as `List Char`, `datetime.date` values as proleptic
Gregorian ordinals (`Nat`, day 1 = 0001-01-01, exactly CPython's
`date.toordinal`), dictionaries as functions into `Option`, raised
`ValueError`s as `Except String`, and the ambient wall-clock date
(`datetime.date.today()`) as an explicit `today` parameter.
-/

namespace THM

abbrev Str := List Char

/-! ### Calendar arithmetic (CPython `datetime` internals) -/

/-- Leap-year test, as in CPython `datetime._is_leap`. -/
def isLeap (y : Nat) : Bool :=
  decide (y % 4 = 0 ∧ (y % 100 ≠ 0 ∨ y % 400 = 0))

/-- CPython `datetime._DAYS_IN_MONTH` (index 0 is a sentinel). -/
def DAYS_IN_MONTH : List Nat := [0, 31, 28, 31, 30, 31, 30, 31, 31, 30, 31, 30, 31]

/-- CPython `datetime._days_in_month`. -/
def daysInMonth (y m : Nat) : Nat :=
  if m = 2 ∧ isLeap y then 29 else DAYS_IN_MONTH.getD m 0

/-- CPython `datetime._DAYS_BEFORE_MONTH` (index 0 is a sentinel). -/
def DAYS_BEFORE_MONTH : List Nat := [0, 0, 31, 59, 90, 120, 151, 181, 212, 243, 273, 304, 334]

/-- CPython `datetime._days_before_month`. -/
def daysBeforeMonth (y m : Nat) : Nat :=
  DAYS_BEFORE_MONTH.getD m 0 + (if 2 < m ∧ isLeap y then 1 else 0)

/-- CPython `datetime._days_before_year`. -/
def daysBeforeYear (y : Nat) : Nat :=
  (y - 1) * 365 + (y - 1) / 4 - (y - 1) / 100 + (y - 1) / 400

/-- CPython `date.toordinal`: day number of year/month/day, with
0001-01-01 being day 1. -/
def toOrdinal (y m d : Nat) : Nat :=
  daysBeforeYear y + daysBeforeMonth y m + d

/-- Number of days in year `y` (365, or 366 in a leap year). -/
def daysInYear (y : Nat) : Nat := if isLeap y then 366 else 365

/-! ### Python string helpers -/

/-- Python's default `str.strip` whitespace set. -/
def pyIsSpace (c : Char) : Bool :=
  decide (c = ' ' ∨ c = '\t' ∨ c = '\n' ∨ c = '\r' ∨ c.toNat = 11 ∨ c.toNat = 12)

/-- Python `str.strip()`. -/
def trimL (s : Str) : Str :=
  ((s.dropWhile pyIsSpace).reverse.dropWhile pyIsSpace).reverse

/-- Python `str.rstrip("/")`. -/
def rstripSlashes (s : Str) : Str :=
  (s.reverse.dropWhile (fun c => c = '/')).reverse

/-- Python `str.startswith`, second argument is the pattern. -/
def startsWithL : Str → Str → Bool
  | _, [] => true
  | [], _ :: _ => false
  | c :: cs, p :: ps => c = p && startsWithL cs ps

/-- Python `str.split(sep)` for a one-character separator: always
returns at least one (possibly empty) chunk. -/
def splitChar (sep : Char) : Str → List Str
  | [] => [[]]
  | c :: rest =>
    let r := splitChar sep rest
    if c = sep then [] :: r
    else
      match r with
      | [] => [[c]]
      | g :: gs => (c :: g) :: gs

def isDigitC (c : Char) : Bool := decide (48 ≤ c.toNat ∧ c.toNat ≤ 57)

def digitVal (c : Char) : Nat := c.toNat - 48

/-- Value of a non-empty all-digit string, `none` otherwise. -/
def digitsVal (s : Str) : Option Nat :=
  if s = [] then none
  else if s.all isDigitC then
    some (s.foldl (fun acc c => acc * 10 + digitVal c) 0)
  else none

/-- Python `int(str)` on decimal literals with an optional sign
(surrounding whitespace stripped); `none` models the raised
`ValueError`. -/
def parseInt (s : Str) : Option Int :=
  match trimL s with
  | '-' :: rest => (digitsVal rest).map (fun n => -(n : Int))
  | '+' :: rest => (digitsVal rest).map (fun n => (n : Int))
  | rest => (digitsVal rest).map (fun n => (n : Int))

/-- Python `date.fromisoformat` on the `YYYY-MM-DD` form: the
year/month/day triple when the string is a well-formed calendar date
(month 1–12, day within the month, year ≥ 1), `none` otherwise. -/
def dateFromIso? (s : Str) : Option (Nat × Nat × Nat) :=
  match s with
  | [y1, y2, y3, y4, h1, m1, m2, h2, d1, d2] =>
    if h1 = '-' ∧ h2 = '-' ∧
       (isDigitC y1 && isDigitC y2 && isDigitC y3 && isDigitC y4 &&
        isDigitC m1 && isDigitC m2 && isDigitC d1 && isDigitC d2) = true then
      let y := ((digitVal y1 * 10 + digitVal y2) * 10 + digitVal y3) * 10 + digitVal y4
      let m := digitVal m1 * 10 + digitVal m2
      let d := digitVal d1 * 10 + digitVal d2
      if 1 ≤ y ∧ 1 ≤ m ∧ m ≤ 12 ∧ 1 ≤ d ∧ d ≤ daysInMonth y m then
        some (y, m, d)
      else none
    else none
  | _ => none

/-- `date.fromisoformat` followed by `toordinal`. -/
def dateFromIso (s : Str) : Option Nat :=
  (dateFromIso? s).map (fun t => toOrdinal t.1 t.2.1 t.2.2)

/-! ### Activity records and the two merge policies (app.py 109–174) -/

/-- One element of the JSON `yearlyActivity` array. `date` is `none`
when the `"date"` key is absent (app.py defaults it to `""`), `count`
is `none` when the `"count"` key is absent or null (app.py defaults it
to `0` via `entry.get("count", 0) or 0`). -/
structure ActivityEntry where
  date : Option Str
  count : Option Int
deriving DecidableEq, Repr

/-- The parsed date of a record, app.py lines 114 and 117. -/
def dateOf (e : ActivityEntry) : Option Nat := dateFromIso (e.date.getD [])

/-- The effective count of a record, app.py line 115. -/
def countOf (e : ActivityEntry) : Int := e.count.getD 0

/-- Loop body of app.py lines 113–120: a well-formed date overwrites
the map entry (`activity_map[date_value] = count`), a malformed one is
skipped. -/
def stepRecord (m : Nat → Option Int) (e : ActivityEntry) : Nat → Option Int :=
  match dateOf e with
  | none => m
  | some d => fun x => if x = d then some (countOf e) else m x

/-- The `activity_map` of `build_date_series` (app.py 112–120). -/
def buildMap (l : List ActivityEntry) : Nat → Option Int :=
  l.foldl stepRecord (fun _ => none)

/-- Loop body of app.py lines 146–153: a well-formed date adds to the
map entry (`activity_map[date_value] = activity_map.get(date_value, 0)
+ count`), a malformed one is skipped. -/
def stepRecordSum (m : Nat → Option Int) (e : ActivityEntry) : Nat → Option Int :=
  match dateOf e with
  | none => m
  | some d => fun x => if x = d then some ((m d).getD 0 + countOf e) else m x

/-- The `activity_map` of `build_combined_series` (app.py 143–153);
`byYear` models `activities_by_year.get(year, [])`. -/
def buildCombinedMap (years : List Nat) (byYear : Nat → List ActivityEntry) :
    Nat → Option Int :=
  years.foldl (fun m y => (byYear y).foldl stepRecordSum m) (fun _ => none)

/-- The cursor loop of app.py 130–137 / 166–172: every consecutive
ordinal from `s` through `e` inclusive. -/
def dateRange (s e : Nat) : List Nat :=
  (List.range (e + 1 - s)).map (fun i => s + i)

/-- app.py `build_date_series` (lines 109–137); `today` is the value of
`datetime.date.today()`, made explicit, and `year` ranges over the
years accepted by `datetime.date` (1–9999). -/
def build_date_series (year : Nat) (activity : List ActivityEntry) (today : Nat) :
    Except String (List Nat × List Int) :=
  let m := buildMap activity
  let start_date := toOrdinal year 1 1
  let end_of_year := toOrdinal year 12 31
  let end_date := min today end_of_year
  if end_date < start_date then .error ("Year is in the future.")
  else .ok (dateRange start_date end_date,
            (dateRange start_date end_date).map (fun d => (m d).getD 0))

/-- Minimum of a list of years (`min(years)` on a non-empty list). -/
def listMin : List Nat → Nat
  | [] => 0
  | x :: xs => xs.foldl min x

/-- Maximum of a list of years (`max(years)` on a non-empty list). -/
def listMax : List Nat → Nat
  | [] => 0
  | x :: xs => xs.foldl max x

/-- app.py `build_combined_series` (lines 140–174); `today` is made
explicit as above. -/
def build_combined_series (years : List Nat) (byYear : Nat → List ActivityEntry)
    (today : Nat) : Except String (List Nat × List Int) :=
  let m := buildCombinedMap years byYear
  if years.isEmpty then .error ("No years provided for combined series.")
  else
    let start_date := toOrdinal (listMin years) 1 1
    let end_of_last_year := toOrdinal (listMax years) 12 31
    let end_date := min today end_of_last_year
    if end_date < start_date then .error ("Year range is in the future.")
    else .ok (dateRange start_date end_date,
              (dateRange start_date end_date).map (fun d => (m d).getD 0))

/-- Index of the first occurrence of `x`, Python `l.index(x)` guarded
by `x in l`. -/
def firstIdx {α : Type} [DecidableEq α] (x : α) : List α → Option Nat
  | [] => none
  | a :: rest => if a = x then some 0 else (firstIdx x rest).map (fun i => i + 1)

/-- The count recorded by a returned series at date `d`, if the series
exists and covers `d`. -/
def seriesCountAt (res : Except String (List Nat × List Int)) (d : Nat) : Option Int :=
  match res with
  | .error _ => none
  | .ok p => (firstIdx d p.1).map (fun i => p.2.getD i 0)

/-! ### CLI year parsing (app.py 39–65) -/

/-- The four argparse fields consumed by `parse_years` and
`resolve_year`: `--years` (a raw string), `--year-start`, `--year-end`
and `-y` alias `--year` (integers). -/
structure Args where
  yearsCsv : Option Str
  yearStart : Option Int
  yearEnd : Option Int
  year : Option Int
deriving DecidableEq, Repr

/-- app.py `resolve_year` (lines 39–42); `currentYear` is
`datetime.date.today().year`, made explicit. -/
def resolve_year (value : Option Int) (currentYear : Int) : Int :=
  match value with
  | none => currentYear
  | some n => n

/-- The stripped, non-blank items of the `--years` comma list
(app.py 47–51); an absent or empty (falsy) `--years` yields no items. -/
def csvTokens (a : Args) : List Str :=
  match a.yearsCsv with
  | none => []
  | some s =>
    if s = [] then []
    else ((splitChar ',' s).map trimL).filter (fun i => !i.isEmpty)

/-- `int(item)` applied to each token in order; the first bad token
raises `ValueError` (app.py line 52). -/
def parseIntList : List Str → Except String (List Int)
  | [] => .ok []
  | s :: rest =>
    match parseInt s with
    | none => .error ("invalid literal for int with base 10")
    | some n =>
      match parseIntList rest with
      | .error e => .error e
      | .ok l => .ok (n :: l)

/-- The years contributed by the `--years` comma list (app.py 47–52). -/
def csvYears (a : Args) : Except String (List Int) := parseIntList (csvTokens a)

/-- The years contributed by the `--year-start`/`--year-end` range
(app.py 54–59): active when either endpoint is given, a missing
endpoint defaults to the current year, endpoints are swapped when
`start > end`, and the inclusive range is expanded. -/
def rangeYears (a : Args) (currentYear : Int) : List Int :=
  if a.yearStart.isSome || a.yearEnd.isSome then
    let start := a.yearStart.getD currentYear
    let stop := a.yearEnd.getD currentYear
    let p := if stop < start then (stop, start) else (start, stop)
    (List.range (p.2 + 1 - p.1).toNat).map (fun i => p.1 + (i : Int))
  else []

/-- Strictly-sorted duplicate-free insertion, the building block of
`sorted(set(years))`. -/
def insertSorted (x : Int) : List Int → List Int
  | [] => [x]
  | y :: ys => if x < y then x :: y :: ys else if x = y then y :: ys else y :: insertSorted x ys

/-- Python `sorted(set(l))` (app.py line 64): the strictly ascending
list of the distinct elements of `l`. -/
def sortedUnique (l : List Int) : List Int := l.foldr insertSorted []

/-- app.py `parse_years` (lines 45–65); `currentYear` is the ambient
current year, made explicit. -/
def parse_years (a : Args) (currentYear : Int) : Except String (List Int) :=
  match csvYears a with
  | .error e => .error e
  | .ok csv =>
    let years := csv ++ rangeYears a currentYear
    let years := if years = [] then [resolve_year a.year currentYear] else years
    .ok (sortedUnique years)

/-! ### Username resolution (app.py 33–36, 68–82) -/

def httpPre : Str := ("http://").data

def httpsPre : Str := ("https://").data

def pSeg : Str := ("p").data

/-- Python's `username or raw_input` (app.py line 69): `None` and the
empty string are falsy. -/
def pyOr (a b : Option Str) : Option Str :=
  match a with
  | none => b
  | some s => if s = [] then b else some s

/-- app.py lines 75–80: strip trailing slashes, split on `/`, return
the segment after the first `p` segment when one follows it, else the
last segment. -/
def extractUrl (text : Str) : Str :=
  match firstIdx pSeg (splitChar '/' (rstripSlashes text)) with
  | some i =>
    if i + 1 < (splitChar '/' (rstripSlashes text)).length
    then (splitChar '/' (rstripSlashes text)).getD (i + 1) []
    else (splitChar '/' (rstripSlashes text)).getLastD []
  | none => (splitChar '/' (rstripSlashes text)).getLastD []

/-- app.py `resolve_username` (lines 68–82); `prompted` is the
(already stripped, per `prompt_if_missing`) string the interactive
prompt would return, made explicit. -/
def resolve_username (username raw : Option Str) (prompted : Str) : Str :=
  let c0 := pyOr username raw
  let candidate :=
    match c0 with
    | none => trimL prompted
    | some s => if trimL s = [] then trimL prompted else s
  let text := trimL candidate
  if startsWithL text httpPre || startsWithL text httpsPre then extractUrl text
  else text

/-! ### Helper lemmas: the cursor walk -/

lemma dateRange_length (s e : Nat) : (dateRange s e).length = e + 1 - s := by
  simp [dateRange]

lemma dateRange_chain (s e : Nat) :
    List.Chain' (fun a b => b = a + 1) (dateRange s e) := by
  unfold dateRange
  rcases hn : e + 1 - s with _ | k
  · simp
  · rw [List.chain'_map]
    exact (List.chain'_range_succ _ k).mpr (fun m _ => by omega)

lemma dateRange_pairwise (s e : Nat) :
    List.Pairwise (· < ·) (dateRange s e) := by
  unfold dateRange
  exact List.Pairwise.map _ (fun a b h => by omega) (List.pairwise_lt_range _)

lemma dateRange_head (s e : Nat) (h : s ≤ e) :
    (dateRange s e).head? = some s := by
  unfold dateRange
  obtain ⟨k, hk⟩ : ∃ k, e + 1 - s = k + 1 := ⟨e - s, by omega⟩
  rw [hk, List.range_succ_eq_map]
  simp

lemma dateRange_getLast (s e : Nat) (h : s ≤ e) :
    (dateRange s e).getLast? = some e := by
  unfold dateRange
  obtain ⟨k, hk⟩ : ∃ k, e + 1 - s = k + 1 := ⟨e - s, by omega⟩
  rw [hk, List.range_succ, List.map_append]
  simp only [List.map_cons, List.map_nil, List.getLast?_concat]
  exact congrArg some (by omega)

lemma mem_dateRange (s e d : Nat) (h : s ≤ e) :
    d ∈ dateRange s e ↔ s ≤ d ∧ d ≤ e := by
  simp only [dateRange, List.mem_map, List.mem_range]
  constructor
  · rintro ⟨i, hi, rfl⟩
    omega
  · intro hd
    exact ⟨d - s, by omega, by omega⟩

/-! ### Helper lemmas: calendar span of one year -/

lemma daysBeforeMonth_one (y : Nat) : daysBeforeMonth y 1 = 0 := by
  simp [daysBeforeMonth, DAYS_BEFORE_MONTH]

lemma daysBeforeMonth_twelve (y : Nat) :
    daysBeforeMonth y 12 = 334 + (if isLeap y then 1 else 0) := by
  cases h : isLeap y <;> simp [daysBeforeMonth, h] <;> decide

lemma toOrdinal_year_span (y : Nat) :
    toOrdinal y 12 31 + 1 - toOrdinal y 1 1 = daysInYear y ∧
      toOrdinal y 1 1 ≤ toOrdinal y 12 31 := by
  have h1 := daysBeforeMonth_one y
  have h12 := daysBeforeMonth_twelve y
  unfold toOrdinal daysInYear
  cases h : isLeap y <;> simp [h] at h12 ⊢ <;> omega

/-! ### Helper lemmas: the activity maps -/

lemma stepRecord_skip (m : Nat → Option Int) (e : ActivityEntry)
    (h : dateOf e = none) : stepRecord m e = m := by
  simp [stepRecord, h]

lemma stepRecordSum_skip (m : Nat → Option Int) (e : ActivityEntry)
    (h : dateOf e = none) : stepRecordSum m e = m := by
  simp [stepRecordSum, h]

lemma stepRecord_other (m : Nat → Option Int) (e : ActivityEntry) (d : Nat)
    (h : dateOf e ≠ some d) : stepRecord m e d = m d := by
  unfold stepRecord
  cases he : dateOf e with
  | none => rfl
  | some d' =>
    have : d ≠ d' := by
      intro hx
      exact h (hx ▸ he)
    simp [this]

lemma foldl_stepRecord_no_match (l : List ActivityEntry) (m : Nat → Option Int)
    (d : Nat) (h : ∀ r ∈ l, dateOf r ≠ some d) :
    (l.foldl stepRecord m) d = m d := by
  induction l generalizing m with
  | nil => rfl
  | cons r rest ih =>
    rw [List.foldl_cons, ih _ (fun x hx => h x (List.mem_cons_of_mem _ hx))]
    exact stepRecord_other m r d (h r (List.mem_cons_self _ _))

lemma buildMap_nonneg (l : List ActivityEntry)
    (hl : ∀ r ∈ l, 0 ≤ countOf r) (d : Nat) :
    0 ≤ ((buildMap l) d).getD 0 := by
  unfold buildMap
  have main : ∀ (ll : List ActivityEntry) (m : Nat → Option Int),
      (∀ r ∈ ll, 0 ≤ countOf r) → (∀ x, 0 ≤ (m x).getD 0) →
      ∀ x, 0 ≤ ((ll.foldl stepRecord m) x).getD 0 := by
    intro ll
    induction ll with
    | nil => intro m _ hm x; exact hm x
    | cons r rest ih =>
      intro m hll hm x
      rw [List.foldl_cons]
      refine ih _ (fun a ha => hll a (List.mem_cons_of_mem _ ha)) ?_ x
      intro z
      unfold stepRecord
      cases he : dateOf r with
      | none => exact hm z
      | some d' =>
        by_cases hz : z = d'
        · simpa [hz] using hll r (List.mem_cons_self _ _)
        · simpa [hz] using hm z
  exact main l (fun _ => none) hl (fun _ => by simp) d

lemma buildCombinedMap_nonneg (years : List Nat) (byYear : Nat → List ActivityEntry)
    (hl : ∀ y, ∀ r ∈ byYear y, 0 ≤ countOf r) (d : Nat) :
    0 ≤ ((buildCombinedMap years byYear) d).getD 0 := by
  unfold buildCombinedMap
  have inner : ∀ (ll : List ActivityEntry) (m : Nat → Option Int),
      (∀ r ∈ ll, 0 ≤ countOf r) → (∀ x, 0 ≤ (m x).getD 0) →
      ∀ x, 0 ≤ ((ll.foldl stepRecordSum m) x).getD 0 := by
    intro ll
    induction ll with
    | nil => intro m _ hm x; exact hm x
    | cons r rest ih =>
      intro m hll hm x
      rw [List.foldl_cons]
      refine ih _ (fun a ha => hll a (List.mem_cons_of_mem _ ha)) ?_ x
      intro z
      unfold stepRecordSum
      cases he : dateOf r with
      | none => exact hm z
      | some d' =>
        by_cases hz : z = d'
        · have hc := hll r (List.mem_cons_self _ _)
          have hmz := hm d'
          simp [hz]
          omega
        · simpa [hz] using hm z
  have outer : ∀ (ys : List Nat) (m : Nat → Option Int),
      (∀ x, 0 ≤ (m x).getD 0) →
      ∀ x, 0 ≤ ((ys.foldl (fun m y => (byYear y).foldl stepRecordSum m) m) x).getD 0 := by
    intro ys
    induction ys with
    | nil => intro m hm x; exact hm x
    | cons y rest ih =>
      intro m hm x
      rw [List.foldl_cons]
      exact ih _ (inner (byYear y) m (hl y) hm) x
  exact outer years (fun _ => none) (fun _ => by simp) d

/-- Two maps that agree everywhere except possibly at `d`, where they
agree after the `.get(d, 0)` read used by the summing merge. -/
def mapsAgree (d : Nat) (m1 m2 : Nat → Option Int) : Prop :=
  (∀ x, x ≠ d → m1 x = m2 x) ∧ (m1 d).getD 0 = (m2 d).getD 0

lemma stepRecordSum_agree (d : Nat) (r : ActivityEntry) (m1 m2 : Nat → Option Int)
    (h : mapsAgree d m1 m2) :
    mapsAgree d (stepRecordSum m1 r) (stepRecordSum m2 r) := by
  obtain ⟨hne, hd⟩ := h
  unfold stepRecordSum
  cases he : dateOf r with
  | none => exact ⟨hne, hd⟩
  | some d' =>
    have hd' : (m1 d').getD 0 = (m2 d').getD 0 := by
      by_cases hx : d' = d
      · rw [hx]; exact hd
      · rw [hne d' hx]
    constructor
    · intro x hx
      by_cases hxd : x = d'
      · simp [hxd, hd']
      · simp [hxd, hne x hx]
    · by_cases hdd : d = d'
      · simp [hdd, hd']
      · simp [hdd, hd]

lemma foldl_stepRecordSum_agree (d : Nat) (l : List ActivityEntry)
    (m1 m2 : Nat → Option Int) (h : mapsAgree d m1 m2) :
    mapsAgree d (l.foldl stepRecordSum m1) (l.foldl stepRecordSum m2) := by
  induction l generalizing m1 m2 with
  | nil => exact h
  | cons r rest ih =>
    rw [List.foldl_cons, List.foldl_cons]
    exact ih _ _ (stepRecordSum_agree d r m1 m2 h)

lemma stepRecordSum_null_agree (m : Nat → Option Int) (ds : Str) (d : Nat)
    (hp : dateFromIso ds = some d) :
    mapsAgree d (stepRecordSum m ⟨some ds, none⟩) m := by
  have hdo : dateOf ⟨some ds, none⟩ = some d := by simp [dateOf, hp]
  unfold stepRecordSum
  rw [hdo]
  constructor
  · intro x hx
    simp [hx]
  · simp [countOf]

/-! ### Helper lemmas: inverting a successful build -/

lemma build_date_series_ok (y : Nat) (a : List ActivityEntry) (t : Nat)
    (dates : List Nat) (counts : List Int)
    (h : build_date_series y a t = .ok (dates, counts)) :
    dates = dateRange (toOrdinal y 1 1) (min t (toOrdinal y 12 31)) ∧
      counts = dates.map (fun d => ((buildMap a) d).getD 0) ∧
      toOrdinal y 1 1 ≤ min t (toOrdinal y 12 31) := by
  unfold build_date_series at h
  by_cases hc : min t (toOrdinal y 12 31) < toOrdinal y 1 1
  · simp [hc] at h
  · simp [hc] at h
    obtain ⟨h1, h2⟩ := h
    exact ⟨h1.symm, by rw [← h1]; exact h2.symm, by omega⟩

lemma build_combined_series_ok (ys : List Nat) (byY : Nat → List ActivityEntry)
    (t : Nat) (dates : List Nat) (counts : List Int)
    (h : build_combined_series ys byY t = .ok (dates, counts)) :
    ys ≠ [] ∧
      dates = dateRange (toOrdinal (listMin ys) 1 1)
        (min t (toOrdinal (listMax ys) 12 31)) ∧
      counts = dates.map (fun d => ((buildCombinedMap ys byY) d).getD 0) ∧
      toOrdinal (listMin ys) 1 1 ≤ min t (toOrdinal (listMax ys) 12 31) := by
  unfold build_combined_series at h
  by_cases he : ys.isEmpty
  · simp [he] at h
  · by_cases hc : min t (toOrdinal (listMax ys) 12 31) < toOrdinal (listMin ys) 1 1
    · simp [he, hc] at h
    · simp [he, hc] at h
      obtain ⟨h1, h2⟩ := h
      refine ⟨by simpa using he, h1.symm, by rw [← h1]; exact h2.symm, by omega⟩

/-! ### Helper lemmas: sorted deduplication -/

lemma mem_insertSorted (x z : Int) (l : List Int) :
    z ∈ insertSorted x l ↔ z = x ∨ z ∈ l := by
  induction l with
  | nil => simp [insertSorted]
  | cons y ys ih =>
    unfold insertSorted
    by_cases h1 : x < y
    · simp [h1]
      try tauto
    · by_cases h2 : x = y
      · simp [h1, h2]
        try tauto
      · simp [h1, h2, ih]
        try tauto

lemma pairwise_insertSorted (x : Int) (l : List Int)
    (h : l.Pairwise (· < ·)) : (insertSorted x l).Pairwise (· < ·) := by
  induction l with
  | nil => simp [insertSorted]
  | cons y ys ih =>
    rw [List.pairwise_cons] at h
    obtain ⟨hy, hys⟩ := h
    unfold insertSorted
    by_cases h1 : x < y
    · rw [if_pos h1, List.pairwise_cons]
      refine ⟨?_, List.pairwise_cons.mpr ⟨hy, hys⟩⟩
      intro z hz
      rcases List.mem_cons.mp hz with rfl | hz'
      · exact h1
      · exact lt_trans h1 (hy z hz')
    · by_cases h2 : x = y
      · rw [if_neg h1, if_pos h2]
        exact List.pairwise_cons.mpr ⟨hy, hys⟩
      · rw [if_neg h1, if_neg h2, List.pairwise_cons]
        refine ⟨?_, ih hys⟩
        intro z hz
        rcases (mem_insertSorted x z ys).mp hz with rfl | hz'
        · omega
        · exact hy z hz'

lemma mem_sortedUnique (l : List Int) (z : Int) :
    z ∈ sortedUnique l ↔ z ∈ l := by
  induction l with
  | nil => simp [sortedUnique]
  | cons x xs ih =>
    show z ∈ insertSorted x (sortedUnique xs) ↔ _
    rw [mem_insertSorted, ih]
    simp

lemma pairwise_sortedUnique (l : List Int) :
    (sortedUnique l).Pairwise (· < ·) := by
  induction l with
  | nil => simp [sortedUnique]
  | cons x xs ih => exact pairwise_insertSorted x _ ih

/-! ### Helper lemmas: URL segment extraction -/

lemma splitChar_ne_nil (sep : Char) (s : Str) : splitChar sep s ≠ [] := by
  cases s with
  | nil => simp [splitChar]
  | cons c rest =>
    unfold splitChar
    by_cases h : c = sep
    · simp [h]
    · rw [if_neg h]
      cases hr : splitChar sep rest <;> simp

lemma firstIdx_lt_length {α : Type} [DecidableEq α] (x : α) (l : List α) (i : Nat)
    (h : firstIdx x l = some i) : i < l.length := by
  induction l generalizing i with
  | nil => simp [firstIdx] at h
  | cons a rest ih =>
    unfold firstIdx at h
    by_cases ha : a = x
    · simp [ha] at h
      simp
      omega
    · rw [if_neg ha] at h
      cases hr : firstIdx x rest with
      | none => rw [hr] at h; simp at h
      | some j =>
        rw [hr] at h
        simp at h
        have := ih j hr
        simp
        omega

lemma firstIdx_getD {α : Type} [DecidableEq α] (x d : α) (l : List α) (i : Nat)
    (h : firstIdx x l = some i) : l.getD i d = x := by
  induction l generalizing i with
  | nil => simp [firstIdx] at h
  | cons a rest ih =>
    unfold firstIdx at h
    by_cases ha : a = x
    · simp [ha] at h
      simp [← h, List.getD]
      exact ha
    · rw [if_neg ha] at h
      cases hr : firstIdx x rest with
      | none => rw [hr] at h; simp at h
      | some j =>
        rw [hr] at h
        simp at h
        rw [← h]
        simpa [List.getD] using ih j hr

lemma getLastD_eq_getD {α : Type} (l : List α) (d : α) (h : l ≠ []) :
    l.getLastD d = l.getD (l.length - 1) d := by
  induction l with
  | nil => exact absurd rfl h
  | cons a rest ih =>
    cases rest with
    | nil => rfl
    | cons b rs =>
      have := ih (by simp)
      simp only [List.getLastD_cons] at this ⊢
      rw [this]
      simp [List.getD]

/-! ### Helper lemmas: username resolution -/

lemma startsWithL_nil_http : startsWithL [] httpPre = false := rfl

lemma startsWithL_nil_https : startsWithL [] httpsPre = false := rfl

/-- On an already-stripped non-blank URL candidate, `resolve_username`
reduces to the URL extraction of app.py lines 75–80. -/
lemma resolve_username_url (s p : Str) (hs : trimL s = s)
    (h : (startsWithL s httpPre || startsWithL s httpsPre) = true) :
    resolve_username (some s) none p = extractUrl s := by
  have hne : s ≠ [] := by
    intro hnil
    rw [hnil, startsWithL_nil_http, startsWithL_nil_https] at h
    simp at h
  unfold resolve_username
  simp only [pyOr, if_neg hne]
  rw [hs, if_neg hne, hs, if_pos h]

/-- On an already-stripped non-blank non-URL candidate,
`resolve_username` is the identity. -/
lemma resolve_username_plain (s p : Str) (hne : trimL s ≠ [])
    (h1 : startsWithL (trimL s) httpPre = false)
    (h2 : startsWithL (trimL s) httpsPre = false) :
    resolve_username (some s) none p = trimL s := by
  have hsne : s ≠ [] := by
    intro hnil
    exact hne (by simp [hnil, trimL])
  unfold resolve_username
  simp only [pyOr, if_neg hsne, if_neg hne]
  rw [h1, h2]
  simp

/-! ### Claim theorems -/

/-- C3: `build_date_series` fails (raising the future-year
`ValueError`, the spec's RangeError) exactly when Jan 1 of the
requested year exceeds `min(today, Dec 31 of that year)`, i.e. the
year lies entirely in the future; `build_combined_series` fails
exactly when the year list is empty or Jan 1 of `min(years)` exceeds
`min(today, Dec 31 of max(years))`; otherwise both return a series. -/
theorem range_error_conditions :
    (∀ y a t, 1 ≤ y → y ≤ 9999 →
      ((∃ e, build_date_series y a t = .error e) ↔
        min t (toOrdinal y 12 31) < toOrdinal y 1 1)) ∧
    (∀ ys byY t, (∀ y ∈ ys, 1 ≤ y ∧ y ≤ 9999) →
      ((∃ e, build_combined_series ys byY t = .error e) ↔
        (ys = [] ∨ min t (toOrdinal (listMax ys) 12 31) < toOrdinal (listMin ys) 1 1))) := by
  constructor
  · intro y a t _ _
    unfold build_date_series
    by_cases hc : min t (toOrdinal y 12 31) < toOrdinal y 1 1
    · simp [hc]
    · simp [hc]
  · intro ys byY t _
    unfold build_combined_series
    by_cases he : ys.isEmpty
    · have hnil : ys = [] := by simpa using he
      simp [he, hnil]
    · have hne : ys ≠ [] := by simpa using he
      by_cases hc : min t (toOrdinal (listMax ys) 12 31) < toOrdinal (listMin ys) 1 1
      · simp [he, hc, hne]
      · simp [he, hc, hne]

/-- C3 witness: the year 3000 seen from a 2025 wall clock is entirely
in the future, and `build_date_series` indeed fails there. -/
theorem range_error_conditions_witness :
    ∃ e, build_date_series 3000 [] (toOrdinal 2025 1 1) = .error e :=
  (range_error_conditions.1 3000 [] (toOrdinal 2025 1 1)
    (by decide) (by decide)).mpr (by decide)

/-- C4 counterexample: on equal declared inputs (year 2025, no
records) `build_date_series` returns different outputs under two
different wall-clock dates, so the builders as implemented read the
ambient clock and are not pure functions of their declared inputs. -/
theorem builders_depend_on_today :
    build_date_series 2025 [] (toOrdinal 2025 1 1) ≠
      build_date_series 2025 [] (toOrdinal 2025 1 2) := by
  intro h
  have h1 : (build_date_series 2025 [] (toOrdinal 2025 1 1)).toOption.map
      (fun p => p.1.length) = some 1 := rfl
  rw [h] at h1
  have h2 : (build_date_series 2025 [] (toOrdinal 2025 1 2)).toOption.map
      (fun p => p.1.length) = some 2 := rfl
  rw [h2] at h1
  exact absurd h1 (by decide)

/-- C4 (amended): the builders are deterministic in their declared
inputs together with the injected wall-clock date: two runs on equal
inputs and an equal `today` return equal outputs. -/
theorem builders_deterministic_given_today :
    (∀ y a t y' a' t', y = y' → a = a' → t = t' →
      build_date_series y a t = build_date_series y' a' t') ∧
    (∀ ys byY t ys' byY' t', ys = ys' → (∀ z, byY z = byY' z) → t = t' →
      build_combined_series ys byY t = build_combined_series ys' byY' t') := by
  constructor
  · rintro y a t y' a' t' rfl rfl rfl
    rfl
  · rintro ys byY t ys' byY' t' rfl hb rfl
    rw [funext hb]

/-- C4 witness: the determinism instantiated at a concrete run. -/
theorem builders_deterministic_given_today_witness :
    build_date_series 2025 [] (toOrdinal 2025 3 1) =
      build_date_series 2025 [] (toOrdinal 2025 3 1) :=
  builders_deterministic_given_today.1 2025 [] (toOrdinal 2025 3 1)
    2025 [] (toOrdinal 2025 3 1) rfl rfl rfl

/-- C7: a resolved candidate that starts with `http://` or `https://`
is handled by stripping trailing slashes, splitting on `/` and taking
the segment after the first `p` segment when one follows, else the
last segment (`extractUrl`); a non-URL candidate passes through
trimmed; in particular the profile URL with path `p/alice/` resolves
to `alice` and the plain string `bob` to `bob`. -/
theorem resolve_username_extraction :
    (∀ s p, trimL s ≠ [] →
      startsWithL (trimL s) httpPre = false →
      startsWithL (trimL s) httpsPre = false →
      resolve_username (some s) none p = trimL s) ∧
    (∀ s p, trimL s = s →
      (startsWithL s httpPre || startsWithL s httpsPre) = true →
      resolve_username (some s) none p = extractUrl s) ∧
    resolve_username (some (("https://tryhackme.com/p/alice/").data)) none [] =
      ("alice").data ∧
    resolve_username (some (("bob").data)) none [] = ("bob").data :=
  ⟨resolve_username_plain, resolve_username_url, by decide, by decide⟩

/-- C7 witness: the pass-through clause instantiated at the plain
string `carol`. -/
theorem resolve_username_extraction_witness :
    resolve_username (some (("carol").data)) none [] = trimL (("carol").data) :=
  resolve_username_extraction.1 (("carol").data) [] (by decide) (by decide) (by decide)

/-- C10 counterexample: for the URL `https://tryhackme.com/p/x/p` the
last path segment after stripping trailing slashes is `p`, yet
`resolve_username` returns `x` — the segment after the FIRST `p`
segment — not `p`, so the claim's universal statement fails. -/
theorem url_trailing_p_cex :
    (splitChar '/' (rstripSlashes (("https://tryhackme.com/p/x/p").data))).getLastD [] =
      pSeg ∧
    resolve_username (some (("https://tryhackme.com/p/x/p").data)) none [] =
      ("x").data ∧
    ("x").data ≠ pSeg := by decide

/-- C10 (amended): for every already-stripped URL input beginning with
a scheme whose FIRST `p` segment is the last segment of the
slash-split — e.g. `https://tryhackme.com/p` or with a trailing
slash — `resolve_username` returns the string `p`: no segment follows
that `p`, so the last-segment fallback returns `p` itself. -/
theorem url_trailing_p_fallback :
    ∀ s, trimL s = s →
      (startsWithL s httpPre || startsWithL s httpsPre) = true →
      firstIdx pSeg (splitChar '/' (rstripSlashes s)) =
        some ((splitChar '/' (rstripSlashes s)).length - 1) →
      resolve_username (some s) none [] = pSeg := by
  intro s hs hw hfi
  rw [resolve_username_url s [] hs hw]
  unfold extractUrl
  rw [hfi]
  have hlen : splitChar '/' (rstripSlashes s) ≠ [] := splitChar_ne_nil _ _
  have hpos : 0 < (splitChar '/' (rstripSlashes s)).length := List.length_pos.mpr hlen
  have hno : ¬((splitChar '/' (rstripSlashes s)).length - 1 + 1 <
      (splitChar '/' (rstripSlashes s)).length) := by omega
  show (if (splitChar '/' (rstripSlashes s)).length - 1 + 1 <
      (splitChar '/' (rstripSlashes s)).length
    then (splitChar '/' (rstripSlashes s)).getD
      ((splitChar '/' (rstripSlashes s)).length - 1 + 1) []
    else (splitChar '/' (rstripSlashes s)).getLastD []) = pSeg
  rw [if_neg hno]
  rw [getLastD_eq_getD _ [] hlen]
  exact firstIdx_getD pSeg [] _ _ hfi

/-- C10 witness: the amended rule instantiated at
`https://tryhackme.com/p/`. -/
theorem url_trailing_p_fallback_witness :
    resolve_username (some (("https://tryhackme.com/p/").data)) none [] = pSeg :=
  url_trailing_p_fallback (("https://tryhackme.com/p/").data)
    (by decide) (by decide) (by decide)

/-- C8: every successful `parse_years` result is strictly ascending,
hence deduplicated; a start/end range with start > end is swapped
before inclusive expansion (the expansion is symmetric in its
endpoints); and the two cited examples: years="2023,2024" alone gives
[2023, 2024], and start=2022 with end=2020 gives [2020, 2021, 2022]. -/
theorem parse_years_normalized :
    (∀ a cy res, parse_years a cy = .ok res → res.Pairwise (· < ·)) ∧
    (∀ a a' cy s e, a.yearStart = some s → a.yearEnd = some e →
      a'.yearStart = some e → a'.yearEnd = some s →
      rangeYears a cy = rangeYears a' cy) ∧
    (∀ cy, parse_years ⟨some (("2023,2024").data), none, none, none⟩ cy =
      .ok [2023, 2024]) ∧
    (∀ cy, parse_years ⟨none, some 2022, some 2020, none⟩ cy =
      .ok [2020, 2021, 2022]) := by
  refine ⟨?_, ?_, fun cy => rfl, fun cy => rfl⟩
  · intro a cy res h
    unfold parse_years at h
    cases hcsv : csvYears a with
    | error e => rw [hcsv] at h; simp at h
    | ok csv =>
      rw [hcsv] at h
      simp only [Except.ok.injEq] at h
      rw [← h]
      exact pairwise_sortedUnique _
  · intro a a' cy s e h1 h2 h3 h4
    unfold rangeYears
    rw [h1, h2, h3, h4]
    simp only [Option.isSome_some, Bool.true_or, if_pos, Option.getD_some]
    rcases lt_trichotomy s e with hlt | rfl | hgt
    · rw [if_neg (by omega), if_pos hlt]
    · rfl
    · rw [if_pos hgt, if_neg (by omega)]

/-- C8 witness: sortedness instantiated at the swapped-range example. -/
theorem parse_years_normalized_witness :
    ([2020, 2021, 2022] : List Int).Pairwise (· < ·) :=
  parse_years_normalized.1 ⟨none, some 2022, some 2020, none⟩ 0
    [2020, 2021, 2022] (by rfl)

/-- C5 counterexample: with the comma list "2023" and the single year
value 2025 both supplied, `parse_years` returns [2023]: the single
year value contributes nothing once another source is non-empty, so
the result does not contain the years of all supplied sources. -/
theorem parse_years_single_year_ignored :
    parse_years ⟨some (("2023").data), none, none, some 2025⟩ 2030 =
      .ok [2023] ∧ (2025 : Int) ∉ ([2023] : List Int) := by
  exact ⟨rfl, by decide⟩

/-- C5 (amended): the comma list and the start/end range combine, and
the single year value (defaulting to the current year when absent) is
used only when both other sources contribute nothing: membership in
the result is characterized accordingly. -/
theorem parse_years_source_membership :
    ∀ a cy res, parse_years a cy = .ok res →
      ∃ csv, csvYears a = .ok csv ∧
        ∀ z, z ∈ res ↔
          (z ∈ csv ∨ z ∈ rangeYears a cy ∨
            (csv = [] ∧ rangeYears a cy = [] ∧ z = resolve_year a.year cy)) := by
  intro a cy res h
  unfold parse_years at h
  cases hcsv : csvYears a with
  | error e => rw [hcsv] at h; simp at h
  | ok csv =>
    rw [hcsv] at h
    simp only [Except.ok.injEq] at h
    refine ⟨csv, rfl, ?_⟩
    intro z
    rw [← h, mem_sortedUnique]
    by_cases hemp : csv ++ rangeYears a cy = []
    · rw [if_pos hemp]
      obtain ⟨hc, hr⟩ := List.append_eq_nil.mp hemp
      simp [hc, hr]
    · rw [if_neg hemp]
      rw [List.mem_append]
      constructor
      · intro hz
        tauto
      · rintro (hz | hz | ⟨hc, hr, _⟩)
        · exact Or.inl hz
        · exact Or.inr hz
        · exact absurd (by rw [hc, hr]; rfl) hemp

/-- C5 witness: the membership characterization instantiated at the
comma list "2023" alone. -/
theorem parse_years_source_membership_witness :
    ∃ csv, csvYears ⟨some (("2023").data), none, none, none⟩ = .ok csv ∧
      ∀ z, z ∈ ([2023] : List Int) ↔
        (z ∈ csv ∨ z ∈ rangeYears ⟨some (("2023").data), none, none, none⟩ 2030 ∨
          (csv = [] ∧ rangeYears ⟨some (("2023").data), none, none, none⟩ 2030 = [] ∧
            z = resolve_year none 2030)) :=
  parse_years_source_membership ⟨some (("2023").data), none, none, none⟩ 2030
    [2023] (by rfl)

/-- C2: for a year with no future portion, `build_date_series` returns
dates and counts of equal length exactly `daysInYear y`, the dates
starting at Jan 1, strictly ascending and consecutive; for the leap
year 2024 there are 366 entries including Feb 29 and Dec 31; and every
successful `build_combined_series` result is likewise contiguous,
strictly ascending and duplicate-free over its whole span, with counts
of the same length. -/
theorem dense_series_shape :
    (∀ y a t, 1 ≤ y → y ≤ 9999 → toOrdinal y 12 31 ≤ t →
      ∃ dates counts, build_date_series y a t = .ok (dates, counts) ∧
        dates.length = daysInYear y ∧ counts.length = daysInYear y ∧
        dates.head? = some (toOrdinal y 1 1) ∧
        List.Chain' (fun u v => v = u + 1) dates ∧
        dates.Pairwise (· < ·)) ∧
    (∀ a t, toOrdinal 2024 12 31 ≤ t →
      ∃ dates counts, build_date_series 2024 a t = .ok (dates, counts) ∧
        dates.length = 366 ∧ toOrdinal 2024 2 29 ∈ dates ∧
        toOrdinal 2024 12 31 ∈ dates) ∧
    (∀ ys byY t dates counts,
      build_combined_series ys byY t = .ok (dates, counts) →
      counts.length = dates.length ∧
      dates.head? = some (toOrdinal (listMin ys) 1 1) ∧
      dates.getLast? = some (min t (toOrdinal (listMax ys) 12 31)) ∧
      List.Chain' (fun u v => v = u + 1) dates ∧
      dates.Pairwise (· < ·)) := by
  have build_ok : ∀ y a t, toOrdinal y 12 31 ≤ t →
      build_date_series y a t = .ok
        (dateRange (toOrdinal y 1 1) (min t (toOrdinal y 12 31)),
         (dateRange (toOrdinal y 1 1) (min t (toOrdinal y 12 31))).map
           (fun d => ((buildMap a) d).getD 0)) := by
    intro y a t ht
    obtain ⟨hspan, hle⟩ := toOrdinal_year_span y
    have hmin : min t (toOrdinal y 12 31) = toOrdinal y 12 31 := min_eq_right ht
    have hcond : ¬(min t (toOrdinal y 12 31) < toOrdinal y 1 1) := by
      rw [hmin]
      omega
    unfold build_date_series
    simp [hcond]
  refine ⟨?_, ?_, ?_⟩
  · intro y a t _ _ ht
    obtain ⟨hspan, hle⟩ := toOrdinal_year_span y
    have hmin : min t (toOrdinal y 12 31) = toOrdinal y 12 31 := min_eq_right ht
    refine ⟨_, _, build_ok y a t ht, ?_, ?_, ?_, dateRange_chain _ _,
      dateRange_pairwise _ _⟩
    · rw [dateRange_length, hmin]
      exact hspan
    · rw [List.length_map, dateRange_length, hmin]
      exact hspan
    · refine dateRange_head _ _ ?_
      rw [hmin]
      exact hle
  · intro a t ht
    have hmin : min t (toOrdinal 2024 12 31) = toOrdinal 2024 12 31 :=
      min_eq_right ht
    refine ⟨_, _, build_ok 2024 a t ht, ?_, ?_, ?_⟩
    · rw [dateRange_length, hmin]
      decide
    · rw [hmin]
      rw [mem_dateRange _ _ _ (by decide)]
      decide
    · rw [hmin]
      rw [mem_dateRange _ _ _ (by decide)]
      decide
  · intro ys byY t dates counts h
    obtain ⟨hne, h1, h2, hle⟩ := build_combined_series_ok ys byY t dates counts h
    subst h1
    exact ⟨by rw [h2]; simp, dateRange_head _ _ hle, dateRange_getLast _ _ hle,
      dateRange_chain _ _, dateRange_pairwise _ _⟩

/-- C2 witness: the single-year shape instantiated at year 2023 with
no records, seen from Dec 31 2023. -/
theorem dense_series_shape_witness :
    ∃ dates counts,
      build_date_series 2023 [] (toOrdinal 2023 12 31) = .ok (dates, counts) ∧
        dates.length = daysInYear 2023 ∧ counts.length = daysInYear 2023 ∧
        dates.head? = some (toOrdinal 2023 1 1) ∧
        List.Chain' (fun u v => v = u + 1) dates ∧
        dates.Pairwise (· < ·) :=
  dense_series_shape.1 2023 [] (toOrdinal 2023 12 31)
    (by decide) (by decide) (by decide)

/-- C6: when every input record carries a non-negative effective count
(missing counts default to 0, per the data model), every count in the
output of either builder is ≥ 0 — gap-filled days are 0. -/
theorem series_counts_nonneg :
    (∀ y a t dates counts, (∀ r ∈ a, 0 ≤ countOf r) →
      build_date_series y a t = .ok (dates, counts) → ∀ c ∈ counts, 0 ≤ c) ∧
    (∀ ys byY t dates counts, (∀ y', ∀ r ∈ byY y', 0 ≤ countOf r) →
      build_combined_series ys byY t = .ok (dates, counts) → ∀ c ∈ counts, 0 ≤ c) := by
  constructor
  · intro y a t dates counts ha h c hc
    obtain ⟨_, h2, _⟩ := build_date_series_ok y a t dates counts h
    rw [h2] at hc
    obtain ⟨d, _, rfl⟩ := List.mem_map.mp hc
    exact buildMap_nonneg a ha d
  · intro ys byY t dates counts hb h c hc
    obtain ⟨_, _, h2, _⟩ := build_combined_series_ok ys byY t dates counts h
    rw [h2] at hc
    obtain ⟨d, _, rfl⟩ := List.mem_map.mp hc
    exact buildCombinedMap_nonneg ys byY hb d

/-- C6 witness: non-negativity instantiated at a one-record January
2025 series. -/
theorem series_counts_nonneg_witness :
    ∀ c ∈ ([5] : List Int), 0 ≤ c :=
  series_counts_nonneg.1 2025 [⟨some (("2025-01-01").data), some 5⟩]
    (toOrdinal 2025 1 1) [toOrdinal 2025 1 1] [5]
    (by decide) (by rfl)

lemma mapsAgree_refl (d : Nat) (m : Nat → Option Int) : mapsAgree d m m :=
  ⟨fun _ _ => rfl, rfl⟩

lemma mapsAgree_trans (d : Nat) (m1 m2 m3 : Nat → Option Int)
    (h12 : mapsAgree d m1 m2) (h23 : mapsAgree d m2 m3) : mapsAgree d m1 m3 :=
  ⟨fun x hx => (h12.1 x hx).trans (h23.1 x hx), h12.2.trans h23.2⟩

set_option maxRecDepth 8000

/-- C1: merge-policy asymmetry. In the single-year map a later record
with the same date overwrites an earlier one (last-write-wins, no
summing), while the combined map sums counts when the same date comes
from two different years; in particular the records
`2025-01-01:5, 2025-01-01:3` give 3 for that date in the single-year
series, and the same date coming from 2024's and 2025's record lists
gives 8 in the combined series. -/
theorem merge_policy_asymmetry :
    (∀ (l1 l2 l3 : List ActivityEntry) (r1 r2 : ActivityEntry) (d : Nat),
      dateOf r1 = some d → dateOf r2 = some d →
      (∀ x ∈ l3, dateOf x ≠ some d) →
      buildMap ((l1 ++ r1 :: l2) ++ r2 :: l3) d = some (countOf r2)) ∧
    (∀ (y1 y2 : Nat) (ds : Str) (d : Nat) (c1 c2 : Int), y1 ≠ y2 →
      dateFromIso ds = some d →
      buildCombinedMap [y1, y2]
        (fun z => if z = y1 then [⟨some ds, some c1⟩]
                  else if z = y2 then [⟨some ds, some c2⟩] else []) d =
        some (c1 + c2)) ∧
    seriesCountAt (build_date_series 2025
      [⟨some (("2025-01-01").data), some 5⟩, ⟨some (("2025-01-01").data), some 3⟩]
      (toOrdinal 2025 1 1)) (toOrdinal 2025 1 1) = some 3 ∧
    seriesCountAt (build_combined_series [2024, 2025]
      (fun z => if z = 2024 then [⟨some (("2025-01-01").data), some 5⟩]
                else if z = 2025 then [⟨some (("2025-01-01").data), some 3⟩] else [])
      (toOrdinal 2025 1 1)) (toOrdinal 2025 1 1) = some 8 := by
  refine ⟨?_, ?_, by decide, by decide⟩
  · intro l1 l2 l3 r1 r2 d h1 h2 h3
    unfold buildMap
    rw [List.foldl_append, List.foldl_cons]
    rw [foldl_stepRecord_no_match l3 _ d h3]
    simp [stepRecord, h2]
  · intro y1 y2 ds d c1 c2 hne hp
    have hdo1 : dateOf ⟨some ds, some c1⟩ = some d := by simp [dateOf, hp]
    have hdo2 : dateOf ⟨some ds, some c2⟩ = some d := by simp [dateOf, hp]
    have hne' : y2 ≠ y1 := Ne.symm hne
    unfold buildCombinedMap
    simp only [List.foldl_cons, List.foldl_nil, if_pos rfl, if_neg hne']
    simp [stepRecordSum, hdo1, hdo2, countOf]

/-- C1 witness: last-write-wins instantiated at two duplicate-date
records. -/
theorem merge_policy_asymmetry_witness :
    buildMap (([] ++ (⟨some (("2025-01-01").data), some 5⟩ : ActivityEntry) :: []) ++
        (⟨some (("2025-01-01").data), some 3⟩ : ActivityEntry) :: [])
      (toOrdinal 2025 1 1) = some 3 :=
  merge_policy_asymmetry.1 [] [] []
    ⟨some (("2025-01-01").data), some 5⟩ ⟨some (("2025-01-01").data), some 3⟩
    (toOrdinal 2025 1 1) (by decide) (by decide) (by decide)

/-- C9: a record whose date string is not a well-formed calendar date
is silently dropped by both builders (its presence changes nothing and
raises no error), and a record whose count field is missing or null
contributes a count of 0 for its date: it sets the single-year map
entry to 0 and leaves every consumed combined-map value unchanged. -/
theorem malformed_record_tolerance :
    (∀ y t l r, dateOf r = none →
      build_date_series y (l ++ [r]) t = build_date_series y l t) ∧
    (∀ ys byY t y0 (r : ActivityEntry), dateOf r = none →
      build_combined_series ys
        (fun z => if z = y0 then byY z ++ [r] else byY z) t =
        build_combined_series ys byY t) ∧
    (∀ l ds d, dateFromIso ds = some d →
      buildMap (l ++ [⟨some ds, none⟩]) d = some 0) ∧
    (∀ ys byY y0 ds d x, dateFromIso ds = some d →
      ((buildCombinedMap ys
          (fun z => if z = y0 then byY z ++ [(⟨some ds, none⟩ : ActivityEntry)]
                    else byY z)) x).getD 0 =
        ((buildCombinedMap ys byY) x).getD 0) := by
  refine ⟨?_, ?_, ?_, ?_⟩
  · intro y t l r hr
    have hm : buildMap (l ++ [r]) = buildMap l := by
      unfold buildMap
      rw [List.foldl_append, List.foldl_cons, List.foldl_nil, stepRecord_skip _ _ hr]
    unfold build_date_series
    rw [hm]
  · intro ys byY t y0 r hr
    have key : ∀ (ys' : List Nat) (m : Nat → Option Int),
        ys'.foldl (fun m y =>
          ((fun z => if z = y0 then byY z ++ [r] else byY z) y).foldl
            stepRecordSum m) m =
        ys'.foldl (fun m y => (byY y).foldl stepRecordSum m) m := by
      intro ys'
      induction ys' with
      | nil => intro m; rfl
      | cons y rest ih =>
        intro m
        have hin : ((fun z => if z = y0 then byY z ++ [r] else byY z) y).foldl
            stepRecordSum m = (byY y).foldl stepRecordSum m := by
          by_cases hy : y = y0
          · show (if y = y0 then byY y ++ [r] else byY y).foldl stepRecordSum m = _
            rw [if_pos hy, List.foldl_append, List.foldl_cons, List.foldl_nil,
              stepRecordSum_skip _ _ hr]
          · show (if y = y0 then byY y ++ [r] else byY y).foldl stepRecordSum m = _
            rw [if_neg hy]
        rw [List.foldl_cons, List.foldl_cons, hin, ih]
    have hm : buildCombinedMap ys (fun z => if z = y0 then byY z ++ [r] else byY z) =
        buildCombinedMap ys byY := key ys _
    unfold build_combined_series
    rw [hm]
  · intro l ds d hp
    have hdo : dateOf ⟨some ds, none⟩ = some d := by simp [dateOf, hp]
    unfold buildMap
    rw [List.foldl_append, List.foldl_cons, List.foldl_nil]
    simp [stepRecord, hdo, countOf]
  · intro ys byY y0 ds d x hp
    have key : ∀ (ys' : List Nat) (m1 m2 : Nat → Option Int), mapsAgree d m1 m2 →
        mapsAgree d
          (ys'.foldl (fun m y =>
            ((fun z => if z = y0 then byY z ++ [(⟨some ds, none⟩ : ActivityEntry)]
                       else byY z) y).foldl stepRecordSum m) m1)
          (ys'.foldl (fun m y => (byY y).foldl stepRecordSum m) m2) := by
      intro ys'
      induction ys' with
      | nil => intro m1 m2 hm; exact hm
      | cons y rest ih =>
        intro m1 m2 hm
        rw [List.foldl_cons, List.foldl_cons]
        refine ih _ _ ?_
        by_cases hy : y = y0
        · have hsplit : ((fun z => if z = y0 then byY z ++
              [(⟨some ds, none⟩ : ActivityEntry)] else byY z) y).foldl
              stepRecordSum m1 =
              stepRecordSum ((byY y).foldl stepRecordSum m1) ⟨some ds, none⟩ := by
            show (if y = y0 then byY y ++ [(⟨some ds, none⟩ : ActivityEntry)]
                else byY y).foldl stepRecordSum m1 = _
            rw [if_pos hy, List.foldl_append, List.foldl_cons, List.foldl_nil]
          rw [hsplit]
          refine mapsAgree_trans d _ _ _
            (stepRecordSum_null_agree _ ds d hp) ?_
          exact foldl_stepRecordSum_agree d (byY y) m1 m2 hm
        · have heq : ((fun z => if z = y0 then byY z ++
              [(⟨some ds, none⟩ : ActivityEntry)] else byY z) y) = byY y := by
            show (if y = y0 then byY y ++ [(⟨some ds, none⟩ : ActivityEntry)]
                else byY y) = byY y
            rw [if_neg hy]
          rw [heq]
          exact foldl_stepRecordSum_agree d (byY y) m1 m2 hm
    have hagree := key ys (fun _ => none) (fun _ => none) (mapsAgree_refl d _)
    unfold buildCombinedMap
    by_cases hx : x = d
    · rw [hx]
      exact hagree.2
    · rw [hagree.1 x hx]

/-- C9 witness: appending a record with a malformed date string leaves
the single-year series unchanged. -/
theorem malformed_record_tolerance_witness :
    build_date_series 2025 ([] ++ [(⟨some (("not-a-date").data), some 7⟩ : ActivityEntry)])
      (toOrdinal 2025 1 1) = build_date_series 2025 [] (toOrdinal 2025 1 1) :=
  malformed_record_tolerance.1 2025 (toOrdinal 2025 1 1) []
    ⟨some (("not-a-date").data), some 7⟩ (by decide)

end THM
